import Mathlib

/-!
Shallow embedding of `src/healthkit.py` (Apple Health Kit export processing).

Modelling conventions:
* Timezone-aware instants are modelled as integers (`Int`).  The external
  date parser (`dateutil.parser.parse`) is modelled by an integral literal
  parser; its only relevant behaviour is that it either yields an instant or
  raises.
* Python `float` values are modelled as rationals (`Rat`).  The numeric
  parser `float(str)` is modelled by the same integral literal parser
  followed by a cast; only integral literals are recognised, which is enough
  for every claim (none depends on fractional parsing).
* Python exceptions are modelled by `Except HKError`.  `KeyError` raised by
  `xml_element.attrib[...]` becomes `HKError.missingField`, `TypeError`
  becomes `HKError.typeError`, `ValueError` from a failed float conversion
  becomes `HKError.malformedValue`, `IndexError` from `[0]` on an empty list
  becomes `HKError.indexError`, and a failed date parse becomes
  `HKError.malformedTimestamp`.
* `xml_element` is modelled as an association list of string attributes;
  `.get(k)` is a total lookup returning `Option String` and `.attrib[k]` is
  the failing lookup.
* Python's `sorted` is a stable sort; any stable sort computes the same
  list, so it is modelled by `List.insertionSort` (structural recursion,
  hence executable by `rfl`/`decide`).  The source sorts by
  `x.start_date.isoformat()`; on instants this is the order of the
  timestamps themselves.
* The thread pools in `load_xml_tag` / `build_workouts_timeseries` submit
  independent tasks and collect `f.result()` in submission order, so the
  observable behaviour is that of a sequential `mapM`; concurrency itself is
  not modelled.
-/

/-- Error kinds corresponding to the Python exceptions the source can raise. -/
inductive HKError where
  | missingField (field : String)
  | malformedTimestamp
  | malformedValue
  | typeError
  | indexError
deriving DecidableEq

/-- A record value: a float when `unit` is present, otherwise the raw
(possibly absent) string attribute, as in `HKRecord.__init__` lines 44-48. -/
inductive HKValue where
  | num (q : Rat)
  | cat (s : Option String)
deriving DecidableEq

/-- Attribute map of one XML element: named string attributes. -/
abbrev AttrMap := List (String × String)

/-- Models `xml_element.get(k)`: total lookup, `None` when absent. -/
def lookupAttr (m : AttrMap) (k : String) : Option String :=
  (m.find? (fun p => p.1 == k)).map (fun p => p.2)

/-- Models `xml_element.attrib[k]`: raises `KeyError` when absent. -/
def requireAttr (m : AttrMap) (k : String) : Except HKError String :=
  match lookupAttr m k with
  | some v => .ok v
  | none => .error (.missingField k)

/-- Digit-list accumulator for the integral literal parser. -/
def parseNatAux : List Char → Nat → Option Nat
  | [], acc => some acc
  | c :: cs, acc =>
    if c.isDigit then parseNatAux cs (acc * 10 + (c.toNat - 48)) else none

/-- Integral literal parser over the character list (an optional sign
followed by at least one digit). -/
def parseIntStr (s : String) : Option Int :=
  match s.data with
  | [] => none
  | '-' :: cs =>
    match cs with
    | [] => none
    | _ => (parseNatAux cs 0).map (fun n => -(n : Int))
  | cs => (parseNatAux cs 0).map (fun n => (n : Int))

/-- Models `dateutil.parser.parse`: an instant or a parse failure. -/
def parseDate (s : String) : Except HKError Int :=
  match parseIntStr s with
  | some n => .ok n
  | none => .error .malformedTimestamp

/-- Models the numeric part of Python `float(str)`. -/
def parseFloat (s : String) : Option Rat :=
  (parseIntStr s).map (fun n => (n : Rat))

/-- Models Python `float(x)` applied to the result of `.get(...)`:
`float(None)` raises `TypeError`, an unparseable string raises `ValueError`. -/
def pyFloat (s : Option String) : Except HKError Rat :=
  match s with
  | none => .error .typeError
  | some str =>
    match parseFloat str with
    | some q => .ok q
    | none => .error .malformedValue

/-- The `HKRecord` class: one health measurement. -/
structure HKRecord where
  rec_type : Option String
  source_name : Option String
  source_version : Option String
  device : Option String
  unit : Option String
  creation_date : Int
  start_date : Int
  end_date : Int
  value : HKValue
deriving DecidableEq

/-- The `HKWorkout` class: one workout session. -/
structure HKWorkout where
  activity_type : Option String
  duration : Rat
  duration_unit : Option String
  total_distance : Rat
  total_distance_unit : Option String
  total_energy_burned : Rat
  total_energy_burned_unit : Option String
  source_name : Option String
  source_version : Option String
  device : Option String
  creation_date : Int
  start_date : Int
  end_date : Int
deriving DecidableEq

/-- `HKRecord.__init__`: the `.get` attributes never fail, the three dates go
through `.attrib[...]` (KeyError when absent) and the date parser, and the
value is a float exactly when `unit` is present (lines 35-48 of the source).
The matches are nested in the source's evaluation order. -/
def hkRecordFromAttrs (m : AttrMap) : Except HKError HKRecord :=
  match requireAttr m "creationDate" with
  | .error e => .error e
  | .ok cdStr =>
    match parseDate cdStr with
    | .error e => .error e
    | .ok creation_date =>
      match requireAttr m "startDate" with
      | .error e => .error e
      | .ok sdStr =>
        match parseDate sdStr with
        | .error e => .error e
        | .ok start_date =>
          match requireAttr m "endDate" with
          | .error e => .error e
          | .ok edStr =>
            match parseDate edStr with
            | .error e => .error e
            | .ok end_date =>
              match lookupAttr m "unit" with
              | none =>
                .ok { rec_type := lookupAttr m "type",
                      source_name := lookupAttr m "sourceName",
                      source_version := lookupAttr m "sourceVersion",
                      device := lookupAttr m "device",
                      unit := none,
                      creation_date := creation_date,
                      start_date := start_date,
                      end_date := end_date,
                      value := HKValue.cat (lookupAttr m "value") }
              | some u =>
                match pyFloat (lookupAttr m "value") with
                | .error e => .error e
                | .ok q =>
                  .ok { rec_type := lookupAttr m "type",
                        source_name := lookupAttr m "sourceName",
                        source_version := lookupAttr m "sourceVersion",
                        device := lookupAttr m "device",
                        unit := some u,
                        creation_date := creation_date,
                        start_date := start_date,
                        end_date := end_date,
                        value := HKValue.num q }

/-- `HKWorkout.__init__`: `float(...)` is applied to the three summary
metrics (TypeError when the attribute is absent), the three dates go through
`.attrib[...]` and the date parser, and every other attribute is a plain
`.get` (lines 90-102 of the source), in the source's evaluation order. -/
def hkWorkoutFromAttrs (m : AttrMap) : Except HKError HKWorkout :=
  match pyFloat (lookupAttr m "duration") with
  | .error e => .error e
  | .ok duration =>
    match pyFloat (lookupAttr m "totalDistance") with
    | .error e => .error e
    | .ok total_distance =>
      match pyFloat (lookupAttr m "totalEnergyBurned") with
      | .error e => .error e
      | .ok total_energy_burned =>
        match requireAttr m "creationDate" with
        | .error e => .error e
        | .ok cdStr =>
          match parseDate cdStr with
          | .error e => .error e
          | .ok creation_date =>
            match requireAttr m "startDate" with
            | .error e => .error e
            | .ok sdStr =>
              match parseDate sdStr with
              | .error e => .error e
              | .ok start_date =>
                match requireAttr m "endDate" with
                | .error e => .error e
                | .ok edStr =>
                  match parseDate edStr with
                  | .error e => .error e
                  | .ok end_date =>
                    .ok { activity_type := lookupAttr m "workoutActivityType",
                          duration := duration,
                          duration_unit := lookupAttr m "durationUnit",
                          total_distance := total_distance,
                          total_distance_unit := lookupAttr m "totalDistanceUnit",
                          total_energy_burned := total_energy_burned,
                          total_energy_burned_unit := lookupAttr m "totalEnergyBurnedUnit",
                          source_name := lookupAttr m "sourceName",
                          source_version := lookupAttr m "sourceVersion",
                          device := lookupAttr m "device",
                          creation_date := creation_date,
                          start_date := start_date,
                          end_date := end_date }

/-- Python substring containment `needle in hay` on character lists. -/
def isSubstr (needle : List Char) : List Char → Bool
  | [] => needle.isEmpty
  | c :: t => needle.isPrefixOf (c :: t) || isSubstr needle t

/-- The `ts_source` argument of `build_single_workout_timeseries`: the Python
parameter may be `None` (the documented default), a list of source names, or
a value of any other shape. -/
inductive TSSourceArg where
  | noneArg
  | listArg (sources : List String)
  | malformedArg
deriving DecidableEq

/-- A timeseries: the (timestamp, value) rows of the `pandas.Series`. -/
abbrev HKSeries := List (Int × HKValue)

/-- Membership check of line 253: `s_date <= r.start_date <= e_date`. -/
def inWindow (w : HKWorkout) (r : HKRecord) : Bool :=
  decide (w.start_date ≤ r.start_date) && decide (r.start_date ≤ w.end_date)

/-- Comparison underlying the sort key `x.start_date.isoformat()`. -/
def recordLE (a b : HKRecord) : Prop := a.start_date ≤ b.start_date

instance : DecidableRel recordLE :=
  fun a b => inferInstanceAs (Decidable (a.start_date ≤ b.start_date))

instance : IsTotal HKRecord recordLE :=
  ⟨fun a b => Int.le_total a.start_date b.start_date⟩

instance : IsTrans HKRecord recordLE :=
  ⟨fun _ _ _ h1 h2 => Int.le_trans h1 h2⟩

/-- The record selection of line 253 before sorting. -/
def selectedOf (w : HKWorkout) (records : List HKRecord) : List HKRecord :=
  records.filter (inWindow w)

/-- The sorted selection `records_of_workout` of line 253 (stable sort by
start timestamp). -/
def sortedSelOf (w : HKWorkout) (records : List HKRecord) : List HKRecord :=
  (selectedOf w records).insertionSort recordLE

/-- The type string of a record as used by the grouping loop; the builder
raises before this is ever applied to a record whose type attribute is
absent. -/
def typeStr (r : HKRecord) : String := r.rec_type.getD ""

/-- The key set of line 256, `set([r.rec_type for r in records_of_workout])`,
as a duplicate-free list (Python set iteration order is arbitrary and no
output of the builder depends on it). -/
def keysOf (w : HKWorkout) (records : List HKRecord) : List String :=
  ((sortedSelOf w records).map typeStr).dedup

/-- The grouping test of line 265: `key in r.rec_type`. -/
def matchesKey (key : String) (r : HKRecord) : Bool :=
  isSubstr key.data (typeStr r).data

/-- The source filter test of line 276: `r.source_name in ts_source` (a
`None` source name is never an element of a list of strings). -/
def srcSelected (tsSources : List String) (r : HKRecord) : Bool :=
  match r.source_name with
  | some s => tsSources.contains s
  | none => false

/-- Python `str.lower()` (ASCII case folding on the character list). -/
def lowerStr (s : String) : String := ⟨s.data.map Char.toLower⟩

/-- Test of line 285: `'category' in key.lower()` decides the series dtype. -/
def isCategoryKey (key : String) : Bool :=
  isSubstr "category".data (lowerStr key).data

/-- Coercion of one stored value to float for a non-categorical series
(`dtype=float` on line 290): floats pass through, strings are re-parsed,
`None` raises `TypeError`. -/
def coerceFloat : HKValue → Except HKError Rat
  | .num q => .ok q
  | .cat none => .error .typeError
  | .cat (some str) =>
    match parseFloat str with
    | some q => .ok q
    | none => .error .malformedValue

/-- Sequential effectful map over `Except` (used for the value coercions of
one series and for the per-key loop; any failure aborts the whole build). -/
def exceptMapM (f : α → Except ε β) : List α → Except ε (List β)
  | [] => .ok []
  | x :: xs =>
    match f x with
    | .error e => .error e
    | .ok y =>
      match exceptMapM f xs with
      | .error e => .error e
      | .ok ys => .ok (y :: ys)

/-- The series rows of lines 284-290 for one key, built from the candidate
records: categorical keys keep the stored values, all other keys coerce every
value to float. -/
def rawSeries (cand : List HKRecord) (key : String) : Except HKError HKSeries :=
  if isCategoryKey key then
    .ok (cand.map (fun r => (r.start_date, r.value)))
  else
    exceptMapM (fun r => (coerceFloat r.value).map (fun q => (r.start_date, HKValue.num q))) cand

/-- `ts[~ts.index.duplicated()]` of line 294: drop every row whose timestamp
already occurred earlier in the series. -/
def dedupKeepFirst : HKSeries → List Int → HKSeries
  | [], _ => []
  | p :: rest, seen =>
    if p.1 ∈ seen then dedupKeepFirst rest seen
    else p :: dedupKeepFirst rest (p.1 :: seen)

/-- Per-key results of one iteration of the loop of lines 262-296. -/
structure TypeGroupResult where
  grp : List HKRecord
  unit : Option String
  series : Option HKSeries
deriving DecidableEq

/-- One iteration of the loop of lines 262-296: group the records matching
the key (substring containment), take the unit of the first group member
(IndexError on an empty group), build the candidate series restricted to the
selected sources, skip the timeseries when no candidate survives, otherwise
coerce and optionally deduplicate. -/
def processKey (sortedSel : List HKRecord) (tsSources : List String) (remDup : Bool)
    (key : String) : Except HKError TypeGroupResult :=
  match sortedSel.filter (matchesKey key) with
  | [] => .error .indexError
  | r0 :: rest =>
    if (sortedSel.filter (fun r => matchesKey key r && srcSelected tsSources r)).isEmpty then
      .ok ⟨r0 :: rest, r0.unit, none⟩
    else
      match rawSeries (sortedSel.filter (fun r => matchesKey key r && srcSelected tsSources r)) key with
      | .error e => .error e
      | .ok ts => .ok ⟨r0 :: rest, r0.unit, some (if remDup then dedupKeepFirst ts [] else ts)⟩

/-- The output dict of line 299. -/
structure TimeseriesBundle where
  workout : HKWorkout
  records : List (String × List HKRecord)
  timeseries : List (String × HKSeries)
  units : List (String × Option String)
deriving DecidableEq

/-- Assembling the three dicts of lines 259-299 from the per-key results. -/
def bundleOfResults (w : HKWorkout) (results : List (String × TypeGroupResult)) :
    TimeseriesBundle :=
  { workout := w,
    records := results.map (fun e => (e.1, e.2.grp)),
    timeseries := results.filterMap (fun e => e.2.series.map (fun ts => (e.1, ts))),
    units := results.map (fun e => (e.1, e.2.unit)) }

/-- Body of `build_single_workout_timeseries` after the `isinstance` check
(so `ts_source` is known to be a list, and the `ts_source is not None` branch
of line 274 is always taken).  Python raises `TypeError` as soon as
`key in r.rec_type` is evaluated against a record whose type attribute is
`None`, which happens exactly when some selected record has no type. -/
def buildWithSources (workout : HKWorkout) (records : List HKRecord)
    (rem_duplicates : Bool) (tsSources : List String) : Except HKError TimeseriesBundle :=
  if (sortedSelOf workout records).any (fun r => r.rec_type.isNone) then
    .error .typeError
  else
    match exceptMapM
        (fun k => (processKey (sortedSelOf workout records) tsSources rem_duplicates k).map
          (fun res => (k, res)))
        (keysOf workout records) with
    | .error e => .error e
    | .ok results => .ok (bundleOfResults workout results)

/-- `build_single_workout_timeseries` (lines 208-300): the guard of lines
246-248 raises `TypeError` unless `ts_source` is a list — including for the
documented default `None`. -/
def build_single_workout_timeseries (workout : HKWorkout) (records : List HKRecord)
    (rem_duplicates : Bool) (ts_source : TSSourceArg) : Except HKError TimeseriesBundle :=
  match ts_source with
  | .listArg sources => buildWithSources workout records rem_duplicates sources
  | _ => .error .typeError

/-- `build_workouts_timeseries` (lines 302-358): one build per workout; the
futures are collected in submission order and the first exception
propagates, so the observable behaviour is a sequential `mapM`. -/
def build_workouts_timeseries (workouts : List HKWorkout) (records : List HKRecord)
    (rem_duplicates : Bool) (ts_source : TSSourceArg) : Except HKError (List TimeseriesBundle) :=
  exceptMapM (fun w => build_single_workout_timeseries w records rem_duplicates ts_source) workouts

/-! ### Generic helper lemmas -/

theorem exceptMap_ok {ε α β : Type} {f : α → β} {x : Except ε α} {b : β}
    (h : Except.map f x = .ok b) : ∃ a, x = .ok a ∧ b = f a := by
  cases x with
  | error e => simp [Except.map] at h
  | ok a =>
    simp only [Except.map, Except.ok.injEq] at h
    exact ⟨a, rfl, h.symm⟩

theorem exceptMap_error {ε α β : Type} {f : α → β} {x : Except ε α} {e : ε}
    (h : Except.map f x = .error e) : x = .error e := by
  cases x with
  | error e' => simpa [Except.map] using h
  | ok a => simp [Except.map] at h

theorem exceptMapM_ok_forall₂ {α β ε : Type} {f : α → Except ε β} :
    ∀ {xs : List α} {ys : List β}, exceptMapM f xs = .ok ys →
      List.Forall₂ (fun x y => f x = .ok y) xs ys := by
  intro xs
  induction xs with
  | nil =>
    intro ys h
    simp only [exceptMapM, Except.ok.injEq] at h
    subst h
    exact List.Forall₂.nil
  | cons x xs ih =>
    intro ys h
    simp only [exceptMapM] at h
    cases hfx : f x with
    | error e => rw [hfx] at h; cases h
    | ok y =>
      rw [hfx] at h
      cases hrest : exceptMapM f xs with
      | error e => rw [hrest] at h; cases h
      | ok ys' =>
        rw [hrest] at h
        cases h
        exact List.Forall₂.cons hfx (ih hrest)

theorem forall₂_exceptMapM_ok {α β ε : Type} {f : α → Except ε β} {xs : List α} {ys : List β}
    (h : List.Forall₂ (fun x y => f x = .ok y) xs ys) : exceptMapM f xs = .ok ys := by
  induction h with
  | nil => rfl
  | cons hxy _ ih => simp [exceptMapM, hxy, ih]

theorem exceptMapM_error_mem {α β ε : Type} {f : α → Except ε β} :
    ∀ {xs : List α} {e : ε}, exceptMapM f xs = .error e → ∃ x ∈ xs, f x = .error e := by
  intro xs
  induction xs with
  | nil => intro e h; cases h
  | cons x xs ih =>
    intro e h
    simp only [exceptMapM] at h
    cases hfx : f x with
    | error e' =>
      rw [hfx] at h
      cases h
      exact ⟨x, List.mem_cons_self x xs, hfx⟩
    | ok y =>
      rw [hfx] at h
      cases hrest : exceptMapM f xs with
      | error e' =>
        rw [hrest] at h
        cases h
        obtain ⟨x', hx', hfx'⟩ := ih hrest
        exact ⟨x', List.mem_cons_of_mem x hx', hfx'⟩
      | ok ys => rw [hrest] at h; cases h

theorem forall₂_mem_right {α β : Type} {R : α → β → Prop} :
    ∀ {xs : List α} {ys : List β}, List.Forall₂ R xs ys → ∀ {y}, y ∈ ys → ∃ x ∈ xs, R x y := by
  intro xs ys h
  induction h with
  | nil => intro y hy; cases hy
  | cons hxy _ ih =>
    intro y hy
    cases hy with
    | head => exact ⟨_, List.mem_cons_self _ _, hxy⟩
    | tail _ hmem =>
      obtain ⟨x, hx, hR⟩ := ih hmem
      exact ⟨x, List.mem_cons_of_mem _ hx, hR⟩

theorem forall₂_mem_left {α β : Type} {R : α → β → Prop} :
    ∀ {xs : List α} {ys : List β}, List.Forall₂ R xs ys → ∀ {x}, x ∈ xs → ∃ y ∈ ys, R x y := by
  intro xs ys h
  induction h with
  | nil => intro x hx; cases hx
  | cons hxy _ ih =>
    intro x hx
    cases hx with
    | head => exact ⟨_, List.mem_cons_self _ _, hxy⟩
    | tail _ hmem =>
      obtain ⟨y, hy, hR⟩ := ih hmem
      exact ⟨y, List.mem_cons_of_mem _ hy, hR⟩

theorem isPrefixOf_self (l : List Char) : l.isPrefixOf l = true := by
  induction l with
  | nil => rfl
  | cons c t ih => simp [List.isPrefixOf, ih]

theorem isSubstr_refl (l : List Char) : isSubstr l l = true := by
  cases l with
  | nil => rfl
  | cons c t => simp [isSubstr, isPrefixOf_self]

/-! ### Lemmas about `dedupKeepFirst` -/

theorem dedupKeepFirst_sublist : ∀ (l : HKSeries) (seen : List Int),
    (dedupKeepFirst l seen).Sublist l := by
  intro l
  induction l with
  | nil => intro seen; exact List.Sublist.refl _
  | cons p rest ih =>
    intro seen
    simp only [dedupKeepFirst]
    by_cases hc : p.1 ∈ seen
    · rw [if_pos hc]
      exact (ih seen).cons p
    · rw [if_neg hc]
      exact (ih (p.1 :: seen)).cons₂ p

theorem dedupKeepFirst_nodup : ∀ (l : HKSeries) (seen : List Int),
    ((dedupKeepFirst l seen).map Prod.fst).Nodup ∧
      ∀ t ∈ seen, t ∉ (dedupKeepFirst l seen).map Prod.fst := by
  intro l
  induction l with
  | nil => intro seen; exact ⟨List.nodup_nil, fun t _ h => by cases h⟩
  | cons p rest ih =>
    intro seen
    simp only [dedupKeepFirst]
    by_cases hc : p.1 ∈ seen
    · rw [if_pos hc]
      exact ih seen
    · rw [if_neg hc]
      obtain ⟨hnd, hns⟩ := ih (p.1 :: seen)
      refine ⟨?_, ?_⟩
      · simp only [List.map_cons, List.nodup_cons]
        exact ⟨hns p.1 (List.mem_cons_self _ _), hnd⟩
      · intro t ht
        simp only [List.map_cons, List.mem_cons]
        rintro (rfl | hmem)
        · exact hc ht
        · exact hns t (List.mem_cons_of_mem _ ht) hmem

theorem dedupKeepFirst_find? : ∀ (l : HKSeries) (seen : List Int) (p : Int × HKValue),
    p ∈ dedupKeepFirst l seen →
      p.1 ∉ seen ∧ l.find? (fun q => q.1 == p.1) = some p := by
  intro l
  induction l with
  | nil => intro seen p hp; cases hp
  | cons q rest ih =>
    intro seen p hp
    simp only [dedupKeepFirst] at hp
    by_cases hc : q.1 ∈ seen
    · rw [if_pos hc] at hp
      obtain ⟨hns, hfind⟩ := ih seen p hp
      have hfalse : (q.1 == p.1) = false := by
        simp only [beq_eq_false_iff_ne, ne_eq]
        intro heq
        rw [heq] at hc
        exact hns hc
      refine ⟨hns, ?_⟩
      simp only [List.find?_cons, hfalse]
      exact hfind
    · rw [if_neg hc] at hp
      cases hp with
      | head =>
        refine ⟨hc, ?_⟩
        simp only [List.find?_cons, beq_self_eq_true]
      | tail _ hmem =>
        obtain ⟨hns, hfind⟩ := ih (q.1 :: seen) p hmem
        have hp1 : p.1 ∉ seen := fun h => hns (List.mem_cons_of_mem _ h)
        have hfalse : (q.1 == p.1) = false := by
          simp only [beq_eq_false_iff_ne, ne_eq]
          intro heq
          rw [heq] at hns
          exact hns (List.mem_cons_self _ _)
        refine ⟨hp1, ?_⟩
        simp only [List.find?_cons, hfalse]
        exact hfind

/-! ### Stability of the selection sort -/

theorem filter_startDate_orderedInsert (t : Int) (a : HKRecord) :
    ∀ m : List HKRecord,
      (List.orderedInsert recordLE a m).filter (fun r => r.start_date == t)
      = if a.start_date == t
        then a :: m.filter (fun r => r.start_date == t)
        else m.filter (fun r => r.start_date == t) := by
  intro m
  induction m with
  | nil =>
    simp only [List.orderedInsert, List.filter_cons, List.filter_nil]
  | cons b l ih =>
    simp only [List.orderedInsert]
    by_cases hab : recordLE a b
    · rw [if_pos hab]
      simp only [List.filter_cons]
    · rw [if_neg hab]
      simp only [List.filter_cons, ih]
      by_cases ha : (a.start_date == t) = true
      · have hb : (b.start_date == t) = false := by
          simp only [beq_eq_false_iff_ne, ne_eq]
          intro hbeq
          apply hab
          unfold recordLE
          rw [hbeq]
          simp only [beq_iff_eq] at ha
          rw [ha]
        simp [ha, hb]
      · simp only [Bool.not_eq_true] at ha
        simp [ha]

theorem sortedSel_filter_startDate (w : HKWorkout) (records : List HKRecord) (t : Int) :
    (sortedSelOf w records).filter (fun r => r.start_date == t)
    = (selectedOf w records).filter (fun r => r.start_date == t) := by
  unfold sortedSelOf
  generalize selectedOf w records = l
  induction l with
  | nil => rfl
  | cons a l ih =>
    simp only [List.insertionSort]
    rw [filter_startDate_orderedInsert]
    by_cases ha : (a.start_date == t) = true
    · rw [if_pos ha, ih, List.filter_cons]
      simp [ha]
    · rw [if_neg ha, ih, List.filter_cons]
      simp [ha]

/-! ### Anatomy of the builder -/

theorem processKey_ok_cases {sel : List HKRecord} {srcs : List String} {rem : Bool} {key : String}
    {res : TypeGroupResult}
    (h : processKey sel srcs rem key = .ok res) :
    ∃ r0 rest, sel.filter (matchesKey key) = r0 :: rest ∧
      res.grp = r0 :: rest ∧ res.unit = r0.unit ∧
      ((sel.filter (fun r => matchesKey key r && srcSelected srcs r) = [] ∧ res.series = none) ∨
       (sel.filter (fun r => matchesKey key r && srcSelected srcs r) ≠ [] ∧
        ∃ raw, rawSeries (sel.filter (fun r => matchesKey key r && srcSelected srcs r)) key = .ok raw ∧
          res.series = some (if rem then dedupKeepFirst raw [] else raw))) := by
  unfold processKey at h
  split at h
  · cases h
  · next r0 rest hg =>
    refine ⟨r0, rest, hg, ?_⟩
    split at h
    · next hempty =>
      cases h
      exact ⟨rfl, rfl, Or.inl ⟨List.isEmpty_iff.mp hempty, rfl⟩⟩
    · next hempty =>
      split at h
      · cases h
      · next raw hraw =>
        cases h
        exact ⟨rfl, rfl, Or.inr ⟨fun hnil => hempty (List.isEmpty_iff.mpr hnil), raw, hraw, rfl⟩⟩

theorem buildOk_cases {w : HKWorkout} {records : List HKRecord} {rem : Bool} {srcs : List String}
    {b : TimeseriesBundle}
    (h : buildWithSources w records rem srcs = .ok b) :
    (sortedSelOf w records).any (fun r => r.rec_type.isNone) = false ∧
    ∃ results,
      exceptMapM (fun k => (processKey (sortedSelOf w records) srcs rem k).map (fun res => (k, res)))
          (keysOf w records) = .ok results ∧
      b = bundleOfResults w results := by
  unfold buildWithSources at h
  split at h
  · cases h
  · next hany =>
    split at h
    · cases h
    · next results hm =>
      cases h
      exact ⟨by simpa using hany, results, hm, rfl⟩

theorem results_entry_processKey {sel : List HKRecord} {srcs : List String} {rem : Bool}
    {keys : List String} {results : List (String × TypeGroupResult)}
    (h : exceptMapM (fun k => (processKey sel srcs rem k).map (fun res => (k, res))) keys
          = .ok results) :
    (∀ e ∈ results, processKey sel srcs rem e.1 = .ok e.2) ∧
    (∀ k ∈ keys, ∃ res, (k, res) ∈ results ∧ processKey sel srcs rem k = .ok res) ∧
    results.map Prod.fst = keys := by
  have hf := exceptMapM_ok_forall₂ h
  refine ⟨?_, ?_, ?_⟩
  · intro e he
    obtain ⟨k, _, hk⟩ := forall₂_mem_right hf he
    obtain ⟨res, hres, hpair⟩ := exceptMap_ok hk
    subst hpair
    exact hres
  · intro k hk
    obtain ⟨e, he, hke⟩ := forall₂_mem_left hf hk
    obtain ⟨res, hres, hpair⟩ := exceptMap_ok hke
    subst hpair
    exact ⟨res, he, hres⟩
  · clear h
    induction hf with
    | nil => rfl
    | cons hxy _ ih =>
      obtain ⟨res, _, hpair⟩ := exceptMap_ok hxy
      subst hpair
      simp [ih]

theorem mem_keysOf {w : HKWorkout} {records : List HKRecord} {k : String} :
    k ∈ keysOf w records ↔ ∃ r ∈ sortedSelOf w records, typeStr r = k := by
  unfold keysOf
  rw [List.mem_dedup, List.mem_map]

theorem filter_matchesKey_ne_nil {w : HKWorkout} {records : List HKRecord} {k : String}
    (hk : k ∈ keysOf w records) :
    (sortedSelOf w records).filter (matchesKey k) ≠ [] := by
  obtain ⟨r, hr, hty⟩ := mem_keysOf.mp hk
  have hmk : matchesKey k r = true := by
    unfold matchesKey
    rw [hty]
    exact isSubstr_refl _
  exact List.ne_nil_of_mem (List.mem_filter.mpr ⟨hr, hmk⟩)

/-! ### Lemmas about `rawSeries` and the per-key error behaviour -/

theorem rawSeries_ok_length {cand : List HKRecord} {key : String} {raw : HKSeries}
    (h : rawSeries cand key = .ok raw) : raw.length = cand.length := by
  unfold rawSeries at h
  split at h
  · cases h; simp
  · exact (exceptMapM_ok_forall₂ h).length_eq.symm

theorem rawSeries_cat {cand : List HKRecord} {key : String} (hc : isCategoryKey key = true) :
    rawSeries cand key = .ok (cand.map (fun r => (r.start_date, r.value))) := by
  unfold rawSeries
  rw [if_pos hc]

theorem rawSeries_float_mem {cand : List HKRecord} {key : String} {raw : HKSeries}
    (hc : isCategoryKey key = false) (h : rawSeries cand key = .ok raw) :
    ∀ p ∈ raw, (∃ q, p.2 = HKValue.num q) ∧ ∃ r ∈ cand, p.1 = r.start_date := by
  unfold rawSeries at h
  rw [if_neg (by simp [hc])] at h
  intro p hp
  obtain ⟨r, hr, hcoerce⟩ := forall₂_mem_right (exceptMapM_ok_forall₂ h) hp
  obtain ⟨q, _, hpair⟩ := exceptMap_ok hcoerce
  subst hpair
  exact ⟨⟨q, rfl⟩, r, hr, rfl⟩

theorem coerceFloat_ne_indexError (v : HKValue) : coerceFloat v ≠ .error .indexError := by
  cases v with
  | num q => intro h; cases h
  | cat s =>
    cases s with
    | none => intro h; simp [coerceFloat] at h
    | some str =>
      simp only [coerceFloat]
      cases parseFloat str with
      | none => intro h; simp at h
      | some q => intro h; cases h

theorem rawSeries_ne_indexError (cand : List HKRecord) (key : String) :
    rawSeries cand key ≠ .error .indexError := by
  unfold rawSeries
  split
  · intro h; cases h
  · intro h
    obtain ⟨r, _, hr⟩ := exceptMapM_error_mem h
    exact coerceFloat_ne_indexError r.value (exceptMap_error hr)

theorem processKey_error_indexError {sel : List HKRecord} {srcs : List String} {rem : Bool}
    {key : String}
    (h : processKey sel srcs rem key = .error .indexError) :
    sel.filter (matchesKey key) = [] := by
  unfold processKey at h
  split at h
  · next hg => exact hg
  · split at h
    · cases h
    · split at h
      · next e hraw =>
        cases h
        exact absurd hraw (rawSeries_ne_indexError _ _)
      · cases h

theorem buildWithSources_ne_indexError (w : HKWorkout) (records : List HKRecord)
    (rem : Bool) (srcs : List String) :
    buildWithSources w records rem srcs ≠ .error .indexError := by
  unfold buildWithSources
  split
  · intro h; cases h
  · split
    · next e hm =>
      intro h
      cases h
      obtain ⟨k, hk, hke⟩ := exceptMapM_error_mem hm
      have hpk : processKey (sortedSelOf w records) srcs rem k = .error .indexError :=
        exceptMap_error hke
      exact filter_matchesKey_ne_nil hk (processKey_error_indexError hpk)
    · intro h; cases h

theorem processKey_ok_proj {sel : List HKRecord} {srcs srcs' : List String} {rem rem' : Bool}
    {key : String} {res res' : TypeGroupResult}
    (h : processKey sel srcs rem key = .ok res)
    (h' : processKey sel srcs' rem' key = .ok res') :
    res.grp = res'.grp ∧ res.unit = res'.unit := by
  obtain ⟨r0, rest, hg, hgrp, hunit, -⟩ := processKey_ok_cases h
  obtain ⟨r0', rest', hg', hgrp', hunit', -⟩ := processKey_ok_cases h'
  rw [hg] at hg'
  cases hg'
  exact ⟨by rw [hgrp, hgrp'], by rw [hunit, hunit']⟩

theorem exceptMapM_cons_ok {α β ε : Type} {f : α → Except ε β} {x : α} {xs : List α}
    {ys : List β} (h : exceptMapM f (x :: xs) = .ok ys) :
    ∃ y ys', f x = .ok y ∧ exceptMapM f xs = .ok ys' ∧ ys = y :: ys' := by
  have hf := exceptMapM_ok_forall₂ h
  cases hf with
  | cons hxy hrest => exact ⟨_, _, hxy, forall₂_exceptMapM_ok hrest, rfl⟩

theorem results_proj_eq {sel : List HKRecord} {srcs srcs' : List String} {rem rem' : Bool} :
    ∀ {keys : List String} {results results' : List (String × TypeGroupResult)},
      exceptMapM (fun k => (processKey sel srcs rem k).map (fun res => (k, res))) keys
        = .ok results →
      exceptMapM (fun k => (processKey sel srcs' rem' k).map (fun res => (k, res))) keys
        = .ok results' →
      results.map (fun e => (e.1, e.2.grp)) = results'.map (fun e => (e.1, e.2.grp)) ∧
      results.map (fun e => (e.1, e.2.unit)) = results'.map (fun e => (e.1, e.2.unit)) := by
  intro keys
  induction keys with
  | nil =>
    intro results results' h h'
    simp only [exceptMapM, Except.ok.injEq] at h h'
    subst h
    subst h'
    exact ⟨rfl, rfl⟩
  | cons k keys ih =>
    intro results results' h h'
    obtain ⟨e1, ys, hf1, hrest, rfl⟩ := exceptMapM_cons_ok h
    obtain ⟨e2, ys', hf2, hrest', rfl⟩ := exceptMapM_cons_ok h'
    obtain ⟨res, hres, rfl⟩ := exceptMap_ok hf1
    obtain ⟨res', hres', rfl⟩ := exceptMap_ok hf2
    obtain ⟨hgrp, hunit⟩ := processKey_ok_proj hres hres'
    obtain ⟨ihg, ihu⟩ := ih hrest hrest'
    constructor
    · simp only [List.map_cons, hgrp, ihg]
    · simp only [List.map_cons, hunit, ihu]

theorem processKey_rem_pair {sel : List HKRecord} {srcs : List String} {key : String}
    {resT resF : TypeGroupResult}
    (hT : processKey sel srcs true key = .ok resT)
    (hF : processKey sel srcs false key = .ok resF) :
    ∀ {sT}, resT.series = some sT → ∃ sF, resF.series = some sF ∧ sT = dedupKeepFirst sF [] := by
  intro sT hsT
  obtain ⟨r0, rest, hg, hgrp, hunit, hcase⟩ := processKey_ok_cases hT
  obtain ⟨r0', rest', hg', hgrp', hunit', hcase'⟩ := processKey_ok_cases hF
  cases hcase with
  | inl hnone => rw [hnone.2] at hsT; cases hsT
  | inr hsome =>
    obtain ⟨hne, raw, hraw, hser⟩ := hsome
    rw [hser] at hsT
    cases hsT
    cases hcase' with
    | inl hnone' => exact absurd hnone'.1 hne
    | inr hsome' =>
      obtain ⟨-, raw', hraw', hser'⟩ := hsome'
      rw [hraw] at hraw'
      cases hraw'
      refine ⟨raw, ?_, rfl⟩
      rw [hser']
      simp

theorem grp_filter_src (sel : List HKRecord) (srcs : List String) (key : String) :
    (sel.filter (matchesKey key)).filter (srcSelected srcs)
      = sel.filter (fun r => matchesKey key r && srcSelected srcs r) := by
  rw [List.filter_filter]
  exact List.filter_congr (fun r _ => Bool.and_comm _ _)

/-! ### Concrete data for the executable witnesses -/

/-- A workout spanning the window [0, 100]. -/
def w0 : HKWorkout :=
  { activity_type := some "HKWorkoutActivityTypeRunning",
    duration := 30, duration_unit := some "min",
    total_distance := 5, total_distance_unit := some "km",
    total_energy_burned := 300, total_energy_burned_unit := some "kcal",
    source_name := some "Watch", source_version := some "1",
    device := none,
    creation_date := 0, start_date := 0, end_date := 100 }

/-- A workout spanning the window [1000, 1001], matching no record. -/
def w1 : HKWorkout :=
  { activity_type := some "HKWorkoutActivityTypeWalking",
    duration := 1, duration_unit := some "min",
    total_distance := 1, total_distance_unit := some "km",
    total_energy_burned := 10, total_energy_burned_unit := some "kcal",
    source_name := some "Watch", source_version := some "1",
    device := none,
    creation_date := 1000, start_date := 1000, end_date := 1001 }

/-- Heart rate from source B at instant 10. -/
def rHR2 : HKRecord :=
  { rec_type := some "HeartRate", source_name := some "B", source_version := none,
    device := none, unit := some "bpm",
    creation_date := 10, start_date := 10, end_date := 10, value := .num 72 }

/-- Heart rate from source A at instant 10 (duplicate timestamp of rHR2). -/
def rHR1 : HKRecord :=
  { rec_type := some "HeartRate", source_name := some "A", source_version := none,
    device := none, unit := some "bpm",
    creation_date := 10, start_date := 10, end_date := 10, value := .num 70 }

/-- Heart rate from source A at instant 20. -/
def rHR3 : HKRecord :=
  { rec_type := some "HeartRate", source_name := some "A", source_version := none,
    device := none, unit := some "bpm",
    creation_date := 20, start_date := 20, end_date := 20, value := .num 75 }

/-- A record whose type "Rate" is a proper substring of "HeartRate". -/
def rRate : HKRecord :=
  { rec_type := some "Rate", source_name := some "A", source_version := none,
    device := none, unit := some "bpm",
    creation_date := 30, start_date := 30, end_date := 30, value := .num 1 }

/-- A categorical record (type contains "Category", no unit) from source C. -/
def rCat : HKRecord :=
  { rec_type := some "SleepCategoryStage", source_name := some "C", source_version := none,
    device := none, unit := none,
    creation_date := 40, start_date := 40, end_date := 40, value := .cat (some "asleep") }

/-- A record outside the workout window of `w0`. -/
def rOut : HKRecord :=
  { rec_type := some "HeartRate", source_name := some "A", source_version := none,
    device := none, unit := some "bpm",
    creation_date := 200, start_date := 200, end_date := 200, value := .num 99 }

/-- Input record list, deliberately unsorted, with a timestamp tie
(`rHR2` precedes `rHR1`). -/
def recs0 : List HKRecord := [rOut, rHR2, rHR1, rRate, rCat, rHR3]

/-- Source filter admitting A and B but not C. -/
def srcs0 : List String := ["A", "B"]

/-- Fallback bundle used only to extract the `ok` payload of a build. -/
def emptyBundle : TimeseriesBundle := { workout := w0, records := [], timeseries := [], units := [] }

/-- The bundle built for `w0` with duplicates removed and sources A, B. -/
def bundle0 : TimeseriesBundle :=
  (build_single_workout_timeseries w0 recs0 true (.listArg srcs0)).toOption.getD emptyBundle

/-- The bundle built for `w0` with duplicates removed and source A only. -/
def bundle1 : TimeseriesBundle :=
  (build_single_workout_timeseries w0 recs0 true (.listArg ["A"])).toOption.getD emptyBundle

/-- The bundle built for `w0` with duplicates kept and sources A, B. -/
def bundleF : TimeseriesBundle :=
  (build_single_workout_timeseries w0 recs0 false (.listArg srcs0)).toOption.getD emptyBundle

/-! ### Claim theorems -/

/-- Claim C1 (code bug): calling `build_single_workout_timeseries` with the
documented default `ts_source=None` does not mean "no restriction" — the
guard of lines 246-248 raises `TypeError` for every non-list argument,
including `None`.  Any other malformed shape is rejected the same way. -/
theorem claim1_ts_source_guard (w : HKWorkout) (records : List HKRecord) (rem : Bool) :
    build_single_workout_timeseries w records rem .noneArg = .error .typeError ∧
    build_single_workout_timeseries w records rem .malformedArg = .error .typeError :=
  ⟨rfl, rfl⟩

/-- Claim C2: a record of the input list appears somewhere in the "records"
grouping of a successfully built bundle iff its start timestamp lies in
`[workout.start, workout.end]`, both boundaries inclusive. -/
theorem claim2_record_selection (w : HKWorkout) (records : List HKRecord) (rem : Bool)
    (srcs : List String) (b : TimeseriesBundle) (r : HKRecord)
    (hok : build_single_workout_timeseries w records rem (.listArg srcs) = .ok b)
    (hr : r ∈ records) :
    (∃ k grp, (k, grp) ∈ b.records ∧ r ∈ grp) ↔
      (w.start_date ≤ r.start_date ∧ r.start_date ≤ w.end_date) := by
  have hok' : buildWithSources w records rem srcs = .ok b := hok
  obtain ⟨-, results, hm, rfl⟩ := buildOk_cases hok'
  obtain ⟨hall, hexists, -⟩ := results_entry_processKey hm
  constructor
  · rintro ⟨k, grp, hmem, hrg⟩
    simp only [bundleOfResults, List.mem_map, Prod.mk.injEq] at hmem
    obtain ⟨e, he, hek, hegrp⟩ := hmem
    obtain ⟨r0, rest, hg, hgrp, -, -⟩ := processKey_ok_cases (hall e he)
    have hrfilter : r ∈ (sortedSelOf w records).filter (matchesKey e.1) := by
      rw [hg, ← hgrp, hegrp]
      exact hrg
    have hrsorted := (List.mem_filter.mp hrfilter).1
    have hrsel : r ∈ selectedOf w records := by
      unfold sortedSelOf at hrsorted
      exact (List.perm_insertionSort recordLE _).mem_iff.mp hrsorted
    have hw := (List.mem_filter.mp hrsel).2
    unfold inWindow at hw
    simp only [Bool.and_eq_true, decide_eq_true_eq] at hw
    exact hw
  · rintro ⟨h1, h2⟩
    have hsel : r ∈ selectedOf w records := by
      unfold selectedOf
      refine List.mem_filter.mpr ⟨hr, ?_⟩
      unfold inWindow
      simp [h1, h2]
    have hsorted : r ∈ sortedSelOf w records := by
      unfold sortedSelOf
      exact (List.perm_insertionSort recordLE _).mem_iff.mpr hsel
    have hk : typeStr r ∈ keysOf w records := mem_keysOf.mpr ⟨r, hsorted, rfl⟩
    obtain ⟨res, hresmem, hres⟩ := hexists _ hk
    obtain ⟨r0, rest, hg, hgrp, -, -⟩ := processKey_ok_cases hres
    refine ⟨typeStr r, res.grp, ?_, ?_⟩
    · simp only [bundleOfResults, List.mem_map]
      exact ⟨(typeStr r, res), hresmem, rfl⟩
    · rw [hgrp, ← hg]
      refine List.mem_filter.mpr ⟨hsorted, ?_⟩
      unfold matchesKey
      exact isSubstr_refl _

/-- Claim C2 witness at a concrete input. -/
theorem claim2_witness :
    (∃ k grp, (k, grp) ∈ bundle0.records ∧ rHR1 ∈ grp) ↔
      (w0.start_date ≤ rHR1.start_date ∧ rHR1.start_date ≤ w0.end_date) :=
  claim2_record_selection w0 recs0 true srcs0 bundle0 rHR1 rfl (by decide)

/-- Claim C3: the selection is sorted by start timestamp ascending, it is a
permutation of the unsorted selection, and the sort is stable: for every
timestamp the records carrying it keep their input relative order. -/
theorem claim3_sorted_stable (w : HKWorkout) (records : List HKRecord) :
    (sortedSelOf w records).Perm (selectedOf w records) ∧
    (sortedSelOf w records).Pairwise (fun a b => a.start_date ≤ b.start_date) ∧
    ∀ t : Int, (sortedSelOf w records).filter (fun r => r.start_date == t)
             = (selectedOf w records).filter (fun r => r.start_date == t) :=
  ⟨List.perm_insertionSort recordLE _,
   List.sorted_insertionSort recordLE _,
   fun t => sortedSel_filter_startDate w records t⟩

/-- Claim C4: each "records" entry of a built bundle holds exactly the
selected, sorted records whose type contains the key as a substring, so a
key that is a substring of another selected type absorbs that type's
records into its group. -/
theorem claim4_substring_grouping (w : HKWorkout) (records : List HKRecord) (rem : Bool)
    (srcs : List String) (b : TimeseriesBundle) (k k' : String)
    (grp grp' : List HKRecord) (x r : HKRecord)
    (hok : build_single_workout_timeseries w records rem (.listArg srcs) = .ok b)
    (hmem : (k, grp) ∈ b.records)
    (hmem' : (k', grp') ∈ b.records)
    (habs : isSubstr k.data k'.data = true)
    (hr' : r ∈ grp')
    (ht : typeStr r = k') :
    (x ∈ grp ↔ (x ∈ sortedSelOf w records ∧ isSubstr k.data (typeStr x).data = true)) ∧
    r ∈ grp := by
  have hok' : buildWithSources w records rem srcs = .ok b := hok
  obtain ⟨-, results, hm, rfl⟩ := buildOk_cases hok'
  obtain ⟨hall, -, -⟩ := results_entry_processKey hm
  have hgrp_eq : ∀ {kk : String} {gg : List HKRecord},
      (kk, gg) ∈ (bundleOfResults w results).records →
      gg = (sortedSelOf w records).filter (matchesKey kk) := by
    intro kk gg hmm
    simp only [bundleOfResults, List.mem_map, Prod.mk.injEq] at hmm
    obtain ⟨e, he, hek, hegg⟩ := hmm
    obtain ⟨r0, rest, hg, hgrpe, -, -⟩ := processKey_ok_cases (hall e he)
    subst hek
    subst hegg
    rw [hgrpe, hg]
  have hgk := hgrp_eq hmem
  have hgk' := hgrp_eq hmem'
  subst hgk
  subst hgk'
  constructor
  · simp only [List.mem_filter, matchesKey]
  · have hx := List.mem_filter.mp hr'
    refine List.mem_filter.mpr ⟨hx.1, ?_⟩
    unfold matchesKey
    rw [ht]
    exact habs

/-- Claim C4 witness: the "Rate" group of the concrete bundle absorbs the
"HeartRate" record `rHR1`. -/
theorem claim4_witness :
    (rHR1 ∈ [rHR2, rHR1, rHR3, rRate] ↔
      (rHR1 ∈ sortedSelOf w0 recs0 ∧ isSubstr "Rate".data (typeStr rHR1).data = true)) ∧
    rHR1 ∈ [rHR2, rHR1, rHR3, rRate] :=
  claim4_substring_grouping w0 recs0 true srcs0 bundle0 "Rate" "HeartRate"
    [rHR2, rHR1, rHR3, rRate] [rHR2, rHR1, rHR3] rHR1 rHR1
    rfl (by decide) (by decide) (by decide) (by decide) (by decide)

/-- Claim C10: every key of the computed type set has a non-empty "records"
group (substring containment is reflexive), so the `[0]` access taking the
type's unit is in bounds: the builder can never raise `IndexError`. -/
theorem claim10_group_nonempty (w : HKWorkout) (records : List HKRecord) (rem : Bool)
    (srcs : List String) (k : String)
    (hk : k ∈ keysOf w records) :
    (sortedSelOf w records).filter (matchesKey k) ≠ [] ∧
    build_single_workout_timeseries w records rem (.listArg srcs) ≠ .error .indexError :=
  ⟨filter_matchesKey_ne_nil hk, buildWithSources_ne_indexError w records rem srcs⟩

/-- Claim C10 witness at a concrete input. -/
theorem claim10_witness :
    "HeartRate" ∈ keysOf w0 recs0 ∧
    ((sortedSelOf w0 recs0).filter (matchesKey "HeartRate") ≠ [] ∧
     build_single_workout_timeseries w0 recs0 true (.listArg srcs0) ≠ .error .indexError) :=
  ⟨by decide, claim10_group_nonempty w0 recs0 true srcs0 "HeartRate" (by decide)⟩

/-! ### Bundle component inversion lemmas -/

theorem mem_bundle_records {w : HKWorkout} {results : List (String × TypeGroupResult)}
    {k : String} {grp : List HKRecord}
    (h : (k, grp) ∈ (bundleOfResults w results).records) :
    ∃ e ∈ results, e.1 = k ∧ e.2.grp = grp := by
  simp only [bundleOfResults, List.mem_map, Prod.mk.injEq] at h
  obtain ⟨e, he, h1, h2⟩ := h
  exact ⟨e, he, h1, h2⟩

theorem mem_bundle_timeseries {w : HKWorkout} {results : List (String × TypeGroupResult)}
    {k : String} {s : HKSeries}
    (h : (k, s) ∈ (bundleOfResults w results).timeseries) :
    ∃ e ∈ results, e.1 = k ∧ e.2.series = some s := by
  simp only [bundleOfResults, List.mem_filterMap] at h
  obtain ⟨e, he, hes⟩ := h
  cases hser : e.2.series with
  | none => rw [hser] at hes; cases hes
  | some ts =>
    rw [hser] at hes
    simp only [Option.map_some', Option.some.injEq, Prod.mk.injEq] at hes
    obtain ⟨h1, h2⟩ := hes
    exact ⟨e, he, h1, by rw [hser, h2]⟩

theorem bundle_timeseries_mem {w : HKWorkout} {results : List (String × TypeGroupResult)}
    {e : String × TypeGroupResult} (he : e ∈ results) {s : HKSeries}
    (hs : e.2.series = some s) : (e.1, s) ∈ (bundleOfResults w results).timeseries := by
  simp only [bundleOfResults, List.mem_filterMap]
  refine ⟨e, he, ?_⟩
  rw [hs]
  rfl

theorem bundle_records_keys (w : HKWorkout) (results : List (String × TypeGroupResult)) :
    (bundleOfResults w results).records.map Prod.fst = results.map Prod.fst := by
  simp only [bundleOfResults, List.map_map]
  rfl

theorem bundle_units_keys (w : HKWorkout) (results : List (String × TypeGroupResult)) :
    (bundleOfResults w results).units.map Prod.fst = results.map Prod.fst := by
  simp only [bundleOfResults, List.map_map]
  rfl

/-- Claim C5: with `rem_duplicates=true` every series has pairwise distinct
timestamps and each surviving row is the first row carrying its timestamp in
the corresponding undeduplicated series (rows are discarded only from the
series — the "records" and "units" groupings are untouched); with
`rem_duplicates=false` the series row count equals the number of candidate
records (group members passing the source filter). -/
theorem claim5_dedup (w : HKWorkout) (records : List HKRecord) (srcs : List String)
    (bT bF : TimeseriesBundle) (k : String) (sT sF : HKSeries) (grp : List HKRecord)
    (p : Int × HKValue)
    (hT : build_single_workout_timeseries w records true (.listArg srcs) = .ok bT)
    (hF : build_single_workout_timeseries w records false (.listArg srcs) = .ok bF)
    (hsT : (k, sT) ∈ bT.timeseries)
    (hsF : (k, sF) ∈ bF.timeseries)
    (hgrp : (k, grp) ∈ bF.records)
    (hp : p ∈ sT) :
    bT.records = bF.records ∧ bT.units = bF.units ∧
    (sT.map Prod.fst).Nodup ∧ sT = dedupKeepFirst sF [] ∧ sT.Sublist sF ∧
    sF.find? (fun q => q.1 == p.1) = some p ∧
    sF.length = (grp.filter (srcSelected srcs)).length := by
  have hT' : buildWithSources w records true srcs = .ok bT := hT
  have hF' : buildWithSources w records false srcs = .ok bF := hF
  obtain ⟨-, resultsT, hmT, rfl⟩ := buildOk_cases hT'
  obtain ⟨-, resultsF, hmF, rfl⟩ := buildOk_cases hF'
  obtain ⟨hallT, -, -⟩ := results_entry_processKey hmT
  obtain ⟨hallF, -, -⟩ := results_entry_processKey hmF
  obtain ⟨hprojg, hproju⟩ := results_proj_eq hmT hmF
  obtain ⟨eT, heT, heTk, heTs⟩ := mem_bundle_timeseries hsT
  obtain ⟨eF, heF, heFk, heFs⟩ := mem_bundle_timeseries hsF
  have hpkT : processKey (sortedSelOf w records) srcs true k = .ok eT.2 := by
    rw [← heTk]; exact hallT eT heT
  have hpkF : processKey (sortedSelOf w records) srcs false k = .ok eF.2 := by
    rw [← heFk]; exact hallF eF heF
  obtain ⟨sF', hsF', hTdedup⟩ := processKey_rem_pair hpkT hpkF heTs
  have hsFeq : sF' = sF := Option.some.inj (hsF'.symm.trans heFs)
  rw [hsFeq] at hTdedup hsF'
  have hnodup := (dedupKeepFirst_nodup sF []).1
  have hfind := dedupKeepFirst_find? sF [] p (by rw [← hTdedup]; exact hp)
  obtain ⟨r0, rest, hg, hgrpF, -, hcaseF⟩ := processKey_ok_cases hpkF
  have hlen : sF.length
      = ((sortedSelOf w records).filter
          (fun r => matchesKey k r && srcSelected srcs r)).length := by
    cases hcaseF with
    | inl hnone => rw [hnone.2] at heFs; cases heFs
    | inr hsome =>
      obtain ⟨-, raw, hraw, hser⟩ := hsome
      have hrawsF : raw = sF := by
        have h3 := hser.symm.trans heFs
        simpa using h3
      rw [← hrawsF]
      exact rawSeries_ok_length hraw
  obtain ⟨e', he', he'k, he'g⟩ := mem_bundle_records hgrp
  have hpk' : processKey (sortedSelOf w records) srcs false k = .ok e'.2 := by
    rw [← he'k]; exact hallF e' he'
  have he'eq : e'.2 = eF.2 := by
    rw [hpkF] at hpk'
    exact (Except.ok.inj hpk').symm
  have hgrpeq : grp = (sortedSelOf w records).filter (matchesKey k) := by
    rw [← he'g, he'eq, hgrpF, hg]
  refine ⟨?_, ?_, ?_, hTdedup, ?_, hfind.2, ?_⟩
  · simp only [bundleOfResults]
    exact hprojg
  · simp only [bundleOfResults]
    exact hproju
  · rw [hTdedup]
    exact hnodup
  · rw [hTdedup]
    exact dedupKeepFirst_sublist sF []
  · rw [hlen, hgrpeq, grp_filter_src]

/-- Claim C5 witness at a concrete input (type "HeartRate", duplicate
timestamp 10 from sources A and B). -/
theorem claim5_witness :
    bundle0.records = bundleF.records ∧ bundle0.units = bundleF.units ∧
    (([((10 : Int), HKValue.num 72), (20, HKValue.num 75)].map Prod.fst).Nodup ∧
     [((10 : Int), HKValue.num 72), (20, HKValue.num 75)]
       = dedupKeepFirst [(10, .num 72), (10, .num 70), (20, .num 75)] [] ∧
     List.Sublist [((10 : Int), HKValue.num 72), (20, HKValue.num 75)]
       [(10, .num 72), (10, .num 70), (20, .num 75)] ∧
     List.find? (fun q => q.1 == (10 : Int))
       [((10 : Int), HKValue.num 72), (10, .num 70), (20, .num 75)] = some (10, .num 72) ∧
     List.length [((10 : Int), HKValue.num 72), (10, .num 70), (20, .num 75)]
       = ([rHR2, rHR1, rHR3].filter (srcSelected srcs0)).length) := by
  have h := claim5_dedup w0 recs0 srcs0 bundle0 bundleF "HeartRate"
    [(10, .num 72), (20, .num 75)] [(10, .num 72), (10, .num 70), (20, .num 75)]
    [rHR2, rHR1, rHR3] (10, .num 72)
    rfl rfl (by decide) (by decide) (by decide) (by decide)
  exact ⟨h.1, h.2.1, h.2.2.1, h.2.2.2.1, h.2.2.2.2.1, h.2.2.2.2.2.1, h.2.2.2.2.2.2⟩

/-- Claim C6: a built bundle's "records" and "units" mappings have the same
key set; the "timeseries" key set is a subset; a key can be missing from the
timeseries only when every selected record of that type fails the source
filter; and the source filter never changes the "records" or "units"
mappings. -/
theorem claim6_filter_scope (w : HKWorkout) (records : List HKRecord) (rem : Bool)
    (srcs srcs' : List String) (b b' : TimeseriesBundle) (k k₂ : String) (r : HKRecord)
    (hok : build_single_workout_timeseries w records rem (.listArg srcs) = .ok b)
    (hok' : build_single_workout_timeseries w records rem (.listArg srcs') = .ok b')
    (hk : k ∈ b.records.map Prod.fst)
    (hknots : k ∉ b.timeseries.map Prod.fst)
    (hr : r ∈ sortedSelOf w records)
    (ht : typeStr r = k)
    (hk₂ : k₂ ∈ b.timeseries.map Prod.fst) :
    b.records.map Prod.fst = b.units.map Prod.fst ∧
    k₂ ∈ b.records.map Prod.fst ∧
    srcSelected srcs r = false ∧
    b'.records = b.records ∧ b'.units = b.units := by
  have h1 : buildWithSources w records rem srcs = .ok b := hok
  have h2 : buildWithSources w records rem srcs' = .ok b' := hok'
  obtain ⟨-, results, hm, rfl⟩ := buildOk_cases h1
  obtain ⟨-, results', hm', rfl⟩ := buildOk_cases h2
  obtain ⟨hall, hexists, hkeys⟩ := results_entry_processKey hm
  obtain ⟨hprojg, hproju⟩ := results_proj_eq hm' hm
  refine ⟨?_, ?_, ?_, ?_, ?_⟩
  · rw [bundle_records_keys, bundle_units_keys]
  · rw [bundle_records_keys]
    obtain ⟨pr, hpr, hfst⟩ := List.mem_map.mp hk₂
    obtain ⟨e, he, hek, -⟩ := mem_bundle_timeseries (show (pr.1, pr.2) ∈ _ from hpr)
    exact List.mem_map.mpr ⟨e, he, by rw [hek, hfst]⟩
  · rw [bundle_records_keys, hkeys] at hk
    obtain ⟨res, hres, hpk⟩ := hexists k hk
    obtain ⟨r0, rest, hg, hgrp, -, hcase⟩ := processKey_ok_cases hpk
    cases hcase with
    | inr hsome =>
      obtain ⟨-, raw, hraw, hser⟩ := hsome
      have hts := @bundle_timeseries_mem w results (k, res) hres _ hser
      exact absurd (List.mem_map.mpr ⟨_, hts, rfl⟩) hknots
    | inl hnone =>
      have hfilter := List.filter_eq_nil_iff.mp hnone.1
      have hmk : matchesKey k r = true := by
        unfold matchesKey
        rw [ht]
        exact isSubstr_refl _
      cases hsv : srcSelected srcs r with
      | false => rfl
      | true =>
        exact absurd (show (matchesKey k r && srcSelected srcs r) = true by rw [hmk, hsv]; rfl)
          (hfilter r hr)
  · simp only [bundleOfResults]
    exact hprojg
  · simp only [bundleOfResults]
    exact hproju

/-- Claim C6 witness: the categorical type is excluded from the timeseries
by the source filter (its only record comes from source C) but stays in
"records" and "units"; a different filter leaves "records"/"units"
unchanged. -/
theorem claim6_witness :
    bundle0.records.map Prod.fst = bundle0.units.map Prod.fst ∧
    "HeartRate" ∈ bundle0.records.map Prod.fst ∧
    srcSelected srcs0 rCat = false ∧
    bundle1.records = bundle0.records ∧ bundle1.units = bundle0.units :=
  claim6_filter_scope w0 recs0 true srcs0 ["A"] bundle0 bundle1
    "SleepCategoryStage" "HeartRate" rCat
    rfl rfl (by decide) (by decide) (by decide) (by decide) (by decide)

/-- Claim C7: in a built bundle, a series whose key does not contain
"category" (case-insensitively) holds only float values, while a series
whose key does contain it keeps each candidate record's original value. -/
theorem claim7_value_coercion (w : HKWorkout) (records : List HKRecord) (rem : Bool)
    (srcs : List String) (b : TimeseriesBundle) (k : String) (s : HKSeries) (p : Int × HKValue)
    (hok : build_single_workout_timeseries w records rem (.listArg srcs) = .ok b)
    (hks : (k, s) ∈ b.timeseries)
    (hp : p ∈ s) :
    (isCategoryKey k = false → ∃ q, p.2 = HKValue.num q) ∧
    (isCategoryKey k = true → ∃ r, r ∈ sortedSelOf w records ∧ matchesKey k r = true ∧
       srcSelected srcs r = true ∧ p = (r.start_date, r.value)) := by
  have h1 : buildWithSources w records rem srcs = .ok b := hok
  obtain ⟨-, results, hm, rfl⟩ := buildOk_cases h1
  obtain ⟨hall, -, -⟩ := results_entry_processKey hm
  obtain ⟨e, he, hek, hes⟩ := mem_bundle_timeseries hks
  have hpk : processKey (sortedSelOf w records) srcs rem e.1 = .ok e.2 := hall e he
  rw [hek] at hpk
  obtain ⟨r0, rest, hg, hgrp, -, hcase⟩ := processKey_ok_cases hpk
  cases hcase with
  | inl hnone => rw [hnone.2] at hes; cases hes
  | inr hsome =>
    obtain ⟨-, raw, hraw, hser⟩ := hsome
    have hseq : s = (if rem then dedupKeepFirst raw [] else raw) :=
      Option.some.inj (hes.symm.trans hser)
    have hpraw : p ∈ raw := by
      rw [hseq] at hp
      cases rem with
      | false => simpa using hp
      | true => exact (dedupKeepFirst_sublist raw []).subset (by simpa using hp)
    constructor
    · intro hc
      exact ((rawSeries_float_mem hc hraw) p hpraw).1
    · intro hc
      have h4 := @rawSeries_cat
        (List.filter (fun r => matchesKey k r && srcSelected srcs r) (sortedSelOf w records)) k hc
      have hrawmap : raw
          = (List.filter (fun r => matchesKey k r && srcSelected srcs r)
              (sortedSelOf w records)).map (fun r => (r.start_date, r.value)) :=
        (Except.ok.inj (h4.symm.trans hraw)).symm
      rw [hrawmap] at hpraw
      obtain ⟨r, hrc, hpr⟩ := List.mem_map.mp hpraw
      have hf := List.mem_filter.mp hrc
      have hand : matchesKey k r = true ∧ srcSelected srcs r = true := by simpa using hf.2
      exact ⟨r, hf.1, hand.1, hand.2, hpr.symm⟩

/-- Claim C7 witness at a concrete non-categorical key. -/
theorem claim7_witness :
    (isCategoryKey "HeartRate" = false → ∃ q, ((10 : Int), HKValue.num 72).2 = HKValue.num q) ∧
    (isCategoryKey "HeartRate" = true → ∃ r, r ∈ sortedSelOf w0 recs0 ∧
       matchesKey "HeartRate" r = true ∧ srcSelected srcs0 r = true ∧
       ((10 : Int), HKValue.num 72) = (r.start_date, r.value)) :=
  claim7_value_coercion w0 recs0 true srcs0 bundle0 "HeartRate"
    [(10, .num 72), (20, .num 75)] (10, .num 72) rfl (by decide) (by decide)

/-- The workout stored in a successfully built bundle is the workout the
build was called with. -/
theorem build_workout_eq {w : HKWorkout} {records : List HKRecord} {rem : Bool}
    {ts : TSSourceArg} {b : TimeseriesBundle}
    (h : build_single_workout_timeseries w records rem ts = .ok b) : b.workout = w := by
  cases ts with
  | noneArg => cases h
  | malformedArg => cases h
  | listArg srcs =>
    have h' : buildWithSources w records rem srcs = .ok b := h
    obtain ⟨-, results, -, rfl⟩ := buildOk_cases h'
    rfl

/-- Claim C9: a successful `build_workouts_timeseries` returns exactly one
bundle per input workout, and the workouts stored in the bundles are exactly
the input workouts (in submission order, hence each appears exactly once). -/
theorem claim9_one_bundle_per_workout (workouts : List HKWorkout) (records : List HKRecord)
    (rem : Bool) (ts : TSSourceArg) (bs : List TimeseriesBundle)
    (hok : build_workouts_timeseries workouts records rem ts = .ok bs) :
    bs.length = workouts.length ∧ bs.map (fun b => b.workout) = workouts := by
  have hf := exceptMapM_ok_forall₂ hok
  have hmap : ∀ {ws : List HKWorkout} {bs' : List TimeseriesBundle},
      List.Forall₂ (fun w b' => build_single_workout_timeseries w records rem ts = .ok b') ws bs' →
      bs'.map (fun b' => b'.workout) = ws := by
    intro ws bs' hf2
    induction hf2 with
    | nil => rfl
    | cons hxy _ ih => simp only [List.map_cons, build_workout_eq hxy, ih]
  exact ⟨hf.length_eq.symm, hmap hf⟩

/-- The bundle built for the recordless workout `w1`. -/
def bundleW1 : TimeseriesBundle :=
  (build_single_workout_timeseries w1 recs0 true (.listArg srcs0)).toOption.getD emptyBundle

/-- Claim C9 witness at a concrete two-workout batch. -/
theorem claim9_witness :
    [bundle0, bundleW1].length = [w0, w1].length ∧
    [bundle0, bundleW1].map (fun b => b.workout) = [w0, w1] :=
  claim9_one_bundle_per_workout [w0, w1] recs0 true (.listArg srcs0) [bundle0, bundleW1] rfl

/-! ### Claim C8: required-field behaviour of the constructors -/

theorem requireAttr_ok_isSome {m : AttrMap} {k : String} {v : String}
    (h : requireAttr m k = .ok v) : (lookupAttr m k).isSome = true := by
  unfold requireAttr at h
  split at h
  · next v' hv => rw [hv]; rfl
  · cases h

theorem pyFloat_ok_isSome {s : Option String} {q : Rat}
    (h : pyFloat s = .ok q) : s.isSome = true := by
  unfold pyFloat at h
  split at h
  · cases h
  · rfl

/-- Claim C8 counterexample: an attribute map missing the spec-required
fields `type`, `sourceName`, `sourceVersion` and `value` still constructs an
`HKRecord` successfully — the source reads them with `.get`, which returns
`None` instead of raising, so missing required fields do not fail. -/
theorem claim8_counterexample :
    (hkRecordFromAttrs [("creationDate", "0"), ("startDate", "0"), ("endDate", "1")]).isOk
      = true := by decide

/-- Claim C8 amended: construction fails when one of the three date
attributes is absent (for `creationDate` specifically with a
missing-field error), a Record additionally requires `value` once `unit` is
present, and a Workout additionally requires the three `float(...)`
attributes; all other attributes may be absent without failing. -/
theorem claim8_required_fields (m : AttrMap) :
    ((hkRecordFromAttrs m).isOk = true →
       (lookupAttr m "creationDate").isSome = true ∧
       (lookupAttr m "startDate").isSome = true ∧
       (lookupAttr m "endDate").isSome = true ∧
       ((lookupAttr m "unit").isSome = true → (lookupAttr m "value").isSome = true)) ∧
    ((hkWorkoutFromAttrs m).isOk = true →
       (lookupAttr m "duration").isSome = true ∧
       (lookupAttr m "totalDistance").isSome = true ∧
       (lookupAttr m "totalEnergyBurned").isSome = true ∧
       (lookupAttr m "creationDate").isSome = true ∧
       (lookupAttr m "startDate").isSome = true ∧
       (lookupAttr m "endDate").isSome = true) ∧
    (lookupAttr m "creationDate" = none →
       hkRecordFromAttrs m = .error (.missingField "creationDate")) := by
  refine ⟨?_, ?_, ?_⟩
  · intro h
    unfold hkRecordFromAttrs at h
    split at h
    · cases h
    · next cdStr hcd =>
      split at h
      · cases h
      · split at h
        · cases h
        · next sdStr hsd =>
          split at h
          · cases h
          · split at h
            · cases h
            · next edStr hed =>
              split at h
              · cases h
              · split at h
                · next hunit =>
                  refine ⟨requireAttr_ok_isSome hcd, requireAttr_ok_isSome hsd,
                    requireAttr_ok_isSome hed, ?_⟩
                  intro hu
                  rw [hunit] at hu
                  cases hu
                · next u hunit =>
                  split at h
                  · cases h
                  · next q hq =>
                    exact ⟨requireAttr_ok_isSome hcd, requireAttr_ok_isSome hsd,
                      requireAttr_ok_isSome hed, fun _ => pyFloat_ok_isSome hq⟩
  · intro h
    unfold hkWorkoutFromAttrs at h
    split at h
    · cases h
    · next qd hqd =>
      split at h
      · cases h
      · next qdist hqdist =>
        split at h
        · cases h
        · next qe hqe =>
          split at h
          · cases h
          · next cdStr hcd =>
            split at h
            · cases h
            · split at h
              · cases h
              · next sdStr hsd =>
                split at h
                · cases h
                · split at h
                  · cases h
                  · next edStr hed =>
                    split at h
                    · cases h
                    · exact ⟨pyFloat_ok_isSome hqd, pyFloat_ok_isSome hqdist,
                        pyFloat_ok_isSome hqe, requireAttr_ok_isSome hcd,
                        requireAttr_ok_isSome hsd, requireAttr_ok_isSome hed⟩
  · intro hnone
    unfold hkRecordFromAttrs
    have hre : requireAttr m "creationDate" = .error (.missingField "creationDate") := by
      unfold requireAttr
      rw [hnone]
    rw [hre]

/-- A complete Record attribute map used to witness the amended claim. -/
def goodRecMap : AttrMap :=
  [("type", "HeartRate"), ("sourceName", "A"), ("sourceVersion", "1"), ("unit", "bpm"),
   ("creationDate", "5"), ("startDate", "10"), ("endDate", "11"), ("value", "70")]

/-- Claim C8 witness: on a successfully constructed record the required
attributes are all present. -/
theorem claim8_witness :
    (lookupAttr goodRecMap "creationDate").isSome = true ∧
    (lookupAttr goodRecMap "startDate").isSome = true ∧
    (lookupAttr goodRecMap "endDate").isSome = true ∧
    ((lookupAttr goodRecMap "unit").isSome = true →
      (lookupAttr goodRecMap "value").isSome = true) :=
  (claim8_required_fields goodRecMap).1 (by decide)
